import Mathlib

/-!
Verification of the full-page-screenshot capture-and-stitch pipeline
(`src/background.js`).  The repository contains two alternative
implementations in that file:

* variant A: `captureCurrentViewport` (recursive scroll loop with
  `scrollStep = Math.floor(viewportHeight * 0.9)`) feeding `processImages`
  (canvas compositor with a white background fill);
* variant B: `handleCapture` (for-loop stepping by `viewportHeight`, with
  recorded placements `Math.min(i*viewportHeight, height-viewportHeight)`)
  feeding `combineScreenshots` (canvas compositor without a background fill).

Machine integers are modelled as `Nat` (all quantities in the source are
non-negative pixel counts); JavaScript division composed with `Math.floor`
or `Math.ceil` is modelled with `Nat` division.  The recursive capture loop
of variant A is modelled with explicit fuel, since for `scrollStep = 0` the
JavaScript recursion does not terminate (`Math.ceil(height / 0) = Infinity`).
-/

/-- `const scrollStep = Math.floor(viewportHeight * 0.9);`
(src/background.js line 66). -/
def scrollStep (viewportHeight : ℕ) : ℕ := 9 * viewportHeight / 10

/-- `const totalScrolls = Math.ceil(height / scrollStep);`
(src/background.js line 67), for `scrollStep > 0`. -/
def totalScrolls (height step : ℕ) : ℕ := (height + step - 1) / step

/-- `Math.ceil(height / scrollStep)` as JavaScript computes it: for
`scrollStep = 0` (and `height > 0`) the result is `Infinity`, modelled as
`none`.  (For `height = 0, step = 0` JavaScript yields `NaN`; every
comparison against `NaN` is false, which coincides below with the `none`
branch because the second loop conjunct `0 < height` is false too.) -/
def totalScrollsJS (height step : ℕ) : Option ℕ :=
  if step = 0 then none else some (totalScrolls height step)

/-- The continuation test of the capture loop
(src/background.js line 92):
`scrollIndex < totalScrolls - 1 && currentScrollPos + scrollStep < height`.
When `totalScrollsJS` is `none` (JavaScript `Infinity`), the first conjunct
`scrollIndex < Infinity - 1` is true.  For `step > 0, height = 0` JavaScript
compares against `-1` and Lean against `0 - 1 = 0`: both comparisons are
false for every `scrollIndex : ℕ`. -/
def continueCapture (height step scrollIndex : ℕ) : Bool :=
  (match totalScrollsJS height step with
   | none => true
   | some n => decide (scrollIndex < n - 1))
  && decide (scrollIndex * step + step < height)

/-- Variant A capture loop `captureCurrentViewport` (src/background.js
lines 62-107), geometry projection: the list of scroll positions at which a
viewport screenshot is pushed, in push order.  Each recursive call captures
at `currentScrollPos = scrollIndex * step` and recurses exactly when
`continueCapture` holds.  `fuel` bounds the recursion depth; `none` means
the recursion did not finish within `fuel` iterations. -/
def captureCurrentViewport (height step : ℕ) : ℕ → ℕ → Option (List ℕ)
  | 0, _ => none
  | fuel + 1, scrollIndex =>
    if continueCapture height step scrollIndex then
      (captureCurrentViewport height step fuel (scrollIndex + 1)).map
        (fun rest => scrollIndex * step :: rest)
    else
      some [scrollIndex * step]

/-- Outcome of one capture session, as observable effects:
the scroll positions of the tiles pushed, whether the compositor was
invoked, whether an error was logged, and whether the original scroll
position was restored. -/
structure SessionResultA where
  tiles : List ℕ
  composited : Bool
  errorLogged : Bool
  restored : Bool
deriving DecidableEq

/-- Variant A capture loop `captureCurrentViewport` with its failure
handling (src/background.js lines 73-106): `scrollOk i` / `capOk i` tell
whether the scroll (`chrome.scripting.executeScript`) resp. capture
(`chrome.tabs.captureVisibleTab`) of iteration `i` succeeds.  A failure is
caught by a `.catch` that only calls `console.error`: the recursion stops,
`processScreenshots` is never invoked, and no scroll restoration exists
anywhere in this variant (its `restored` field is never set). -/
def captureWithFailures (scrollOk capOk : ℕ → Bool) (height step : ℕ) :
    ℕ → ℕ → List ℕ → Option SessionResultA
  | 0, _, _ => none
  | fuel + 1, scrollIndex, acc =>
    if scrollOk scrollIndex = false then some ⟨acc, false, true, false⟩
    else if capOk scrollIndex = false then some ⟨acc, false, true, false⟩
    else
      if continueCapture height step scrollIndex then
        captureWithFailures scrollOk capOk height step fuel (scrollIndex + 1)
          (acc ++ [scrollIndex * step])
      else some ⟨acc ++ [scrollIndex * step], true, false, false⟩

/-- `const numFullScreenshots = Math.ceil(height / viewportHeight);`
(src/background.js line 280). -/
def numFullScreenshots (height viewportHeight : ℕ) : ℕ :=
  (height + viewportHeight - 1) / viewportHeight

/-- Outcome of a variant B session (`handleCapture`).  Recorded tile
placements are integers because `yPosition = Math.min(i * viewportHeight,
height - viewportHeight)` can be negative when `height < viewportHeight`. -/
structure SessionResultB where
  tiles : List ℤ
  composited : Bool
  errorLogged : Bool
  restored : Bool
deriving DecidableEq

/-- The `for` loop of `handleCapture` (src/background.js lines 283-303)
followed by the restore and combine steps (lines 305-319).  Each iteration
awaits a scroll and a capture; a rejected await makes the whole async
function throw, skipping the remaining iterations, the scroll restoration
and the combine call (the rejection is only surfaced as an unhandled
promise rejection).  On normal loop exit the original scroll position is
restored and `combineScreenshots` is invoked. -/
def handleCaptureLoop (scrollOk capOk : ℕ → Bool) (height viewportHeight : ℕ) :
    List ℕ → List ℤ → SessionResultB
  | [], acc => ⟨acc, true, false, true⟩
  | i :: rest, acc =>
    if scrollOk i = false then ⟨acc, false, true, false⟩
    else if capOk i = false then ⟨acc, false, true, false⟩
    else
      handleCaptureLoop scrollOk capOk height viewportHeight rest
        (acc ++ [min ((i : ℤ) * viewportHeight) ((height : ℤ) - viewportHeight)])

/-- Variant B driver `handleCapture` (src/background.js lines 272-320). -/
def handleCapture (scrollOk capOk : ℕ → Bool) (height viewportHeight : ℕ) :
    SessionResultB :=
  handleCaptureLoop scrollOk capOk height viewportHeight
    (List.range (numFullScreenshots height viewportHeight)) []

/-- An RGBA pixel value of the canvas. -/
structure Color where
  r : ℕ
  g : ℕ
  b : ℕ
  a : ℕ
deriving DecidableEq

/-- `ctx.fillStyle = '#FFFFFF'` (opaque white). -/
def whiteColor : Color := ⟨255, 255, 255, 255⟩

/-- Default pixel value of a freshly created canvas: transparent black. -/
def transparentColor : Color := ⟨0, 0, 0, 0⟩

/-- A decoded raster image: extent plus a pixel function (meaningful on
`[0, width) × [0, height)`). -/
structure Image where
  width : ℕ
  height : ℕ
  pixel : ℕ → ℕ → Color

/-- A canvas: extent plus current pixel contents. -/
structure Canvas where
  width : ℕ
  height : ℕ
  pixel : ℕ → ℕ → Color

/-- `document.createElement('canvas')` with `canvas.width`/`canvas.height`
assigned: all pixels start transparent black. -/
def createCanvas (w h : ℕ) : Canvas := ⟨w, h, fun _ _ => transparentColor⟩

/-- `ctx.fillRect(x0, y0, w, h)` with the current fill colour `col`. -/
def fillRect (c : Canvas) (x0 y0 w h : ℕ) (col : Color) : Canvas :=
  ⟨c.width, c.height, fun x y =>
     if x0 ≤ x ∧ x < x0 + w ∧ y0 ≤ y ∧ y < y0 + h then col else c.pixel x y⟩

/-- `ctx.drawImage(img, dx, dy)` with natural-number placement: pixels of
`img` overwrite the canvas where both extents overlap; the canvas extent is
unchanged (drawing past the edge is clipped, reads outside
`[0, width) × [0, height)` are never serialized). -/
def drawImage (c : Canvas) (img : Image) (dx dy : ℕ) : Canvas :=
  ⟨c.width, c.height, fun x y =>
     if dx ≤ x ∧ x < dx + img.width ∧ dy ≤ y ∧ y < dy + img.height
     then img.pixel (x - dx) (y - dy) else c.pixel x y⟩

/-- `ctx.drawImage(img, dx, dy)` with integer placement (variant B's
`yPosition` can be negative). -/
def drawImageAt (c : Canvas) (img : Image) (dx dy : ℤ) : Canvas :=
  ⟨c.width, c.height, fun x y =>
     if dx ≤ (x : ℤ) ∧ (x : ℤ) < dx + img.width ∧ dy ≤ (y : ℤ) ∧ (y : ℤ) < dy + img.height
     then img.pixel ((x : ℤ) - dx).toNat ((y : ℤ) - dy).toNat else c.pixel x y⟩

/-- One element of variant A's `screenshots` array: `{dataUrl, scrollY}`.
`img` is the result of `loadImage(dataUrl)`: `none` models a decode failure
(`img.onerror` resolves the promise with `null`). -/
structure Screenshot where
  img : Option Image
  scrollY : ℕ

/-- The `dimensions` record as consumed by `processImages`
(only `width` and `height` are read there). -/
structure Dimensions where
  width : ℕ
  height : ℕ

/-- Body of the `drawImages` loop of `processImages` (src/background.js
lines 210-219): a tile whose image decoded is drawn at
`(0, screenshot.scrollY)`; a tile whose load failed (`img` is `null`) is
skipped. -/
def drawScreenshot (c : Canvas) (s : Screenshot) : Canvas :=
  match s.img with
  | some img => drawImage c img 0 s.scrollY
  | none => c

/-- Variant A compositor `processImages` (src/background.js lines 182-229):
allocate a `dimensions.width × dimensions.height` canvas, fill it with
opaque white, then draw every successfully decoded screenshot at its
recorded scroll position, in order. -/
def processImages (screenshots : List Screenshot) (dims : Dimensions) : Canvas :=
  screenshots.foldl drawScreenshot
    (fillRect (createCanvas dims.width dims.height) 0 0 dims.width dims.height whiteColor)

/-- One element of variant B's `screenshots` array: `{dataUrl, yPosition}`.
`img = none` models a data URL whose `Image` never fires `onload`; since
`combineScreenshots` installs no `onerror` handler, the surrounding promise
then never resolves. -/
structure BTile where
  img : Option Image
  yPosition : ℤ

/-- The `processScreenshots` loop inside `combineScreenshots`
(src/background.js lines 365-376): each tile is awaited; the promise
resolves (and drawing happens) only in `onload`, so a tile that fails to
load blocks the loop forever — modelled as `none` (no composite is ever
produced). -/
def combineLoop : List BTile → Canvas → Option Canvas
  | [], c => some c
  | t :: rest, c =>
    match t.img with
    | none => none
    | some img => combineLoop rest (drawImageAt c img 0 t.yPosition)

/-- Variant B compositor `combineScreenshots` (src/background.js
lines 357-389): allocate a `width × height` canvas (no background fill!)
and draw the tiles in order. -/
def combineScreenshots (tiles : List BTile) (width height : ℕ) : Option Canvas :=
  combineLoop tiles (createCanvas width height)

/-- The pixel grid that `canvas.toDataURL` serializes: row `y` lists the
pixels `x = 0, …, width-1`; exactly `height` rows. -/
def serialize (c : Canvas) : List (List Color) :=
  (List.range c.height).map (fun y => (List.range c.width).map (fun x => c.pixel x y))

/-- A screenshot with its image height clipped to the part that lies above
the horizontal line `y = maxH` (used to state that compositing never reads
tile pixels below the canvas's bottom edge). -/
def clipToHeight (maxH : ℕ) (s : Screenshot) : Screenshot :=
  ⟨s.img.map (fun im => ⟨im.width, min im.height (maxH - s.scrollY), im.pixel⟩), s.scrollY⟩

/-- Whether screenshot `s` covers the point `(x, y)` when drawn by
`processImages` (image present, `x` within its width, `y` within
`[scrollY, scrollY + height)`). -/
def coveredBy (s : Screenshot) (x y : ℕ) : Bool :=
  match s.img with
  | none => false
  | some img =>
      decide (x < img.width) && decide (s.scrollY ≤ y) &&
        decide (y < s.scrollY + img.height)

/-! ### Geometry of the variant A offset sequence -/

lemma totalScrolls_eq (height step : ℕ) (hh : 0 < height) (hs : 0 < step) :
    totalScrolls height step = (height - 1) / step + 1 := by
  unfold totalScrolls
  rw [show height + step - 1 = (height - 1) + step by omega, Nat.add_div_right _ hs]

lemma totalScrolls_pos (height step : ℕ) (hh : 0 < height) (hs : 0 < step) :
    0 < totalScrolls height step := by
  rw [totalScrolls_eq height step hh hs]; exact Nat.succ_pos _

/-- For positive `height` and `step`, the two conjuncts of the loop guard
coincide: `currentScrollPos + scrollStep < height` holds exactly when
`scrollIndex < totalScrolls - 1`. -/
lemma continueCapture_cond_iff (height step i : ℕ) (hh : 0 < height) (hs : 0 < step) :
    i * step + step < height ↔ i < totalScrolls height step - 1 := by
  rw [totalScrolls_eq height step hh hs, Nat.add_sub_cancel]
  have hmul : (i + 1) * step = i * step + step := by ring
  constructor
  · intro h
    have h2 : (i + 1) * step ≤ height - 1 := by rw [hmul]; omega
    have h3 := (Nat.le_div_iff_mul_le hs).mpr h2
    omega
  · intro h
    have h2 : (i + 1) * step ≤ height - 1 := (Nat.le_div_iff_mul_le hs).mp (by omega)
    rw [hmul] at h2
    omega

lemma continueCapture_eq (height step i : ℕ) (hh : 0 < height) (hs : 0 < step) :
    continueCapture height step i = decide (i < totalScrolls height step - 1) := by
  unfold continueCapture totalScrollsJS
  rw [if_neg hs.ne']
  by_cases h : i < totalScrolls height step - 1
  · simp [h, (continueCapture_cond_iff height step i hh hs).mpr h]
  · have hd : decide (i < totalScrolls height step - 1) = false := decide_eq_false h
    have hd2 : decide (i * step + step < height) = false :=
      decide_eq_false (fun hc => h ((continueCapture_cond_iff height step i hh hs).mp hc))
    rw [hd, hd2, Bool.and_false]

/-- Closed form of the variant A capture loop: starting at `scrollIndex = i`
(with `i ≤ totalScrolls - 1`) and enough fuel, the loop terminates and
pushes exactly the positions `i*step, (i+1)*step, …, (totalScrolls-1)*step`. -/
lemma captureCurrentViewport_eq (height step : ℕ) (hh : 0 < height) (hs : 0 < step) :
    ∀ fuel i, i ≤ totalScrolls height step - 1 →
      totalScrolls height step - i ≤ fuel →
      captureCurrentViewport height step fuel i =
        some ((List.range' i (totalScrolls height step - i)).map (· * step)) := by
  have hN : 0 < totalScrolls height step := totalScrolls_pos height step hh hs
  intro fuel
  induction fuel with
  | zero => intro i hi hf; omega
  | succ f ih =>
    intro i hi hf
    rw [show captureCurrentViewport height step (f + 1) i =
        if continueCapture height step i then
          (captureCurrentViewport height step f (i + 1)).map
            (fun rest => i * step :: rest)
        else some [i * step] from rfl]
    rw [continueCapture_eq height step i hh hs]
    by_cases hcase : i < totalScrolls height step - 1
    · rw [if_pos (by simpa using hcase)]
      rw [ih (i + 1) (by omega) (by omega)]
      rw [show totalScrolls height step - i = (totalScrolls height step - (i + 1)) + 1 by omega]
      rfl
    · rw [if_neg (by simpa using hcase)]
      have hieq : i = totalScrolls height step - 1 := by omega
      rw [show totalScrolls height step - i = 1 by omega]
      rfl

/-- The fuel argument is monotone: once the loop terminates with some list,
more fuel yields the same list. -/
lemma captureCurrentViewport_mono (height step : ℕ) :
    ∀ fuel i L, captureCurrentViewport height step fuel i = some L →
      ∀ fuel', fuel ≤ fuel' → captureCurrentViewport height step fuel' i = some L := by
  intro fuel
  induction fuel with
  | zero => intro i L h; simp [captureCurrentViewport] at h
  | succ f ih =>
    intro i L h fuel' hf
    obtain ⟨f', rfl⟩ : ∃ f', fuel' = f' + 1 := ⟨fuel' - 1, by omega⟩
    rw [show captureCurrentViewport height step (f + 1) i =
        if continueCapture height step i then
          (captureCurrentViewport height step f (i + 1)).map
            (fun rest => i * step :: rest)
        else some [i * step] from rfl] at h
    rw [show captureCurrentViewport height step (f' + 1) i =
        if continueCapture height step i then
          (captureCurrentViewport height step f' (i + 1)).map
            (fun rest => i * step :: rest)
        else some [i * step] from rfl]
    by_cases hc : continueCapture height step i
    · rw [if_pos hc] at h ⊢
      cases hrec : captureCurrentViewport height step f (i + 1) with
      | none => rw [hrec] at h; simp at h
      | some L0 =>
        rw [ih (i + 1) L0 hrec f' (by omega)]
        rw [hrec] at h
        exact h
    · rw [if_neg hc] at h ⊢
      exact h

/-- Any terminating run of the loop from `scrollIndex = 0` produces exactly
the closed-form offset list. -/
lemma captureCurrentViewport_some_eq (height step fuel : ℕ) (L : List ℕ)
    (hh : 0 < height) (hs : 0 < step)
    (hrun : captureCurrentViewport height step fuel 0 = some L) :
    L = (List.range (totalScrolls height step)).map (· * step) := by
  have h1 := captureCurrentViewport_eq height step hh hs
    (max fuel (totalScrolls height step)) 0 (by omega) (by omega)
  have h2 := captureCurrentViewport_mono height step fuel 0 L hrun
    (max fuel (totalScrolls height step)) (le_max_left _ _)
  rw [h1] at h2
  injection h2 with h3
  rw [← h3, List.range_eq_range']
  norm_num

/-- With `scrollStep = 0` (viewportHeight ≤ 1) and positive page height, the
recursion never reaches its base case: `totalScrolls` is JavaScript
`Infinity` and `currentScrollPos + scrollStep = 0 < height` always holds. -/
lemma captureCurrentViewport_none_of_step_zero (height : ℕ) (hh : 0 < height) :
    ∀ fuel i, captureCurrentViewport height 0 fuel i = none := by
  intro fuel
  induction fuel with
  | zero => intro i; rfl
  | succ f ih =>
    intro i
    rw [show captureCurrentViewport height 0 (f + 1) i =
        if continueCapture height 0 i then
          (captureCurrentViewport height 0 f (i + 1)).map
            (fun rest => i * 0 :: rest)
        else some [i * 0] from rfl]
    have hc : continueCapture height 0 i = true := by
      unfold continueCapture totalScrollsJS
      simp [hh]
    rw [if_pos hc, ih (i + 1)]
    rfl

/-! ### Claims about the offset sequence (C1-C4, C9) -/

/-- C1 counterexample: for `totalHeight = 2500, viewportHeight = 1000`
(`> viewportHeight`), `captureCurrentViewport` generates offsets
`0, 900, 1800`; the last offset is `1800`, not
`totalHeight - viewportHeight = 1500` — no clamping takes place. -/
theorem c1_cex :
    captureCurrentViewport 2500 (scrollStep 1000) 3 0 = some [0, 900, 1800] ∧
      ([0, 900, 1800] : List ℕ).getLast? = some 1800 ∧ 1800 ≠ 2500 - 1000 := by
  decide

/-- C1 (amended): for every geometry with `totalHeight > viewportHeight` and
positive `scrollStep`, any terminating run of `captureCurrentViewport` yields
a strictly increasing offset sequence whose last offset is
`(totalScrolls - 1) * scrollStep` (the largest generated multiple of the
step), with no clamping to `totalHeight - viewportHeight`. -/
theorem c1_offsets_increasing_last (height vh fuel : ℕ) (L : List ℕ)
    (hvh : vh < height) (hs : 0 < scrollStep vh)
    (hrun : captureCurrentViewport height (scrollStep vh) fuel 0 = some L) :
    L.Pairwise (· < ·) ∧
      L.getLast? = some ((totalScrolls height (scrollStep vh) - 1) * scrollStep vh) := by
  have hh : 0 < height := by omega
  have hL := captureCurrentViewport_some_eq height (scrollStep vh) fuel L hh hs hrun
  subst hL
  constructor
  · rw [List.pairwise_map]
    exact (List.pairwise_lt_range _).imp (fun hab => mul_lt_mul_of_pos_right hab hs)
  · obtain ⟨m, hm⟩ : ∃ m, totalScrolls height (scrollStep vh) = m + 1 :=
      ⟨totalScrolls height (scrollStep vh) - 1,
        by have := totalScrolls_pos height (scrollStep vh) hh hs; omega⟩
    rw [hm, List.range_succ, List.map_append]
    simp

/-- C1 witness: the amended statement evaluated on the concrete geometry
`totalHeight = 2500, viewportHeight = 1000`. -/
theorem c1_offsets_increasing_last_witness :
    ([0, 900, 1800] : List ℕ).Pairwise (· < ·) ∧
      ([0, 900, 1800] : List ℕ).getLast? =
        some ((totalScrolls 2500 (scrollStep 1000) - 1) * scrollStep 1000) :=
  c1_offsets_increasing_last 2500 1000 3 [0, 900, 1800] (by decide) (by decide) (by decide)

/-- C2 counterexample: the code computes `step = 900` and three tiles, but
the offsets are `0, 900, 1800` — the third is not clamped to `1500`. -/
theorem c2_cex :
    scrollStep 1000 = 900 ∧
      captureCurrentViewport 2500 (scrollStep 1000) 3 0 = some [0, 900, 1800] ∧
      ([0, 900, 1800] : List ℕ) ≠ [0, 900, 1500] := by
  decide

/-- C2 (amended): for `totalHeight = 2500, viewportHeight = 1000` the driver
computes `step = 900` and produces exactly 3 tiles, at offsets
`0, 900, 1800` (the third offset stays at `2 * step = 1800`; the code has no
clamping to `2500 - 1000 = 1500`). -/
theorem c2_scenario (fuel : ℕ) (hf : 3 ≤ fuel) :
    scrollStep 1000 = 900 ∧
      captureCurrentViewport 2500 (scrollStep 1000) fuel 0 = some [0, 900, 1800] :=
  ⟨by decide,
    captureCurrentViewport_mono 2500 (scrollStep 1000) 3 0 [0, 900, 1800]
      (by decide) fuel hf⟩

/-- C2 witness: the amended scenario at fuel 3. -/
theorem c2_scenario_witness :
    scrollStep 1000 = 900 ∧
      captureCurrentViewport 2500 (scrollStep 1000) 3 0 = some [0, 900, 1800] :=
  c2_scenario 3 (by decide)

/-- C3 (confirmed): for every `totalHeight`, `viewportHeight > 0` and
`overlapFactor ∈ (0, 1]` with `step = ⌊viewportHeight * overlapFactor⌋ > 0`,
every row `y ∈ [0, totalHeight)` is covered by some generated tile range
`[p, p + viewportHeight)`: the union of the tile ranges covers
`[0, totalHeight)` with no gaps. -/
theorem c3_coverage (height vh step fuel : ℕ) (ov : ℚ) (L : List ℕ)
    (_hov0 : 0 < ov) (hov1 : ov ≤ 1) (_hvh : 0 < vh)
    (hstep : step = ⌊(vh : ℚ) * ov⌋₊) (hs : 0 < step)
    (hrun : captureCurrentViewport height step fuel 0 = some L) :
    ∀ y, y < height → ∃ p ∈ L, p ≤ y ∧ y < p + vh := by
  intro y hy
  have hh : 0 < height := by omega
  have hstepvh : step ≤ vh := by
    rw [hstep]
    calc ⌊(vh : ℚ) * ov⌋₊ ≤ ⌊(vh : ℚ)⌋₊ := Nat.floor_le_floor (by nlinarith)
    _ = vh := Nat.floor_natCast vh
  have hL := captureCurrentViewport_some_eq height step fuel L hh hs hrun
  subst hL
  refine ⟨(y / step) * step, ?_, Nat.div_mul_le_self y step, ?_⟩
  · refine List.mem_map.mpr ⟨y / step, List.mem_range.mpr ?_, rfl⟩
    have h2 : y / step ≤ (height - 1) / step := Nat.div_le_div_right (by omega)
    rw [totalScrolls_eq height step hh hs]
    omega
  · have hdm := Nat.div_add_mod y step
    have hml := Nat.mod_lt y hs
    have hcomm : (y / step) * step = step * (y / step) := Nat.mul_comm _ _
    omega

/-- C3 witness: geometry `totalHeight = 25, viewportHeight = 10,
overlapFactor = 9/10` (so `step = 9`, offsets `0, 9, 18`), row `y = 24`. -/
theorem c3_coverage_witness :
    ∃ p ∈ ([0, 9, 18] : List ℕ), p ≤ 24 ∧ 24 < p + 10 :=
  c3_coverage 25 10 9 5 (9/10) [0, 9, 18] (by norm_num) (by norm_num) (by norm_num)
    (by rw [show ((10 : ℕ) : ℚ) * (9/10) = ((9 : ℕ) : ℚ) by norm_num]
        exact (Nat.floor_natCast 9).symm)
    (by norm_num) (by decide) 24 (by norm_num)

/-- C4 counterexample: `totalHeight = 950 ≤ viewportHeight = 1000` is a
single-viewport page, yet the loop continues past the first capture
(`0 + 900 < 950`) and produces two tiles, at `0` and `900`. -/
theorem c4_cex :
    (950 : ℕ) ≤ 1000 ∧
      captureCurrentViewport 950 (scrollStep 1000) 10 0 = some [0, 900] ∧
      ([0, 900] : List ℕ).length ≠ 1 := by
  decide

/-- C4 (amended): the driver produces exactly one tile, at offset 0, when
`totalHeight ≤ scrollStep = ⌊0.9 * viewportHeight⌋` (not for the whole
claimed range `totalHeight ≤ viewportHeight`). -/
theorem c4_single_tile (height vh fuel : ℕ)
    (h : height ≤ scrollStep vh) (hf : 0 < fuel) :
    captureCurrentViewport height (scrollStep vh) fuel 0 = some [0] := by
  obtain ⟨f, rfl⟩ : ∃ f, fuel = f + 1 := ⟨fuel - 1, by omega⟩
  rw [show captureCurrentViewport height (scrollStep vh) (f + 1) 0 =
      if continueCapture height (scrollStep vh) 0 then
        (captureCurrentViewport height (scrollStep vh) f 1).map
          (fun rest => 0 * scrollStep vh :: rest)
      else some [0 * scrollStep vh] from rfl]
  have hc : continueCapture height (scrollStep vh) 0 = false := by
    unfold continueCapture
    have hd2 : decide (0 * scrollStep vh + scrollStep vh < height) = false :=
      decide_eq_false (by omega)
    rw [hd2, Bool.and_false]
  rw [hc]
  norm_num

/-- C4 witness: the amended statement at `totalHeight = 500,
viewportHeight = 1000` (`500 ≤ step = 900`). -/
theorem c4_single_tile_witness :
    captureCurrentViewport 500 (scrollStep 1000) 1 0 = some [0] :=
  c4_single_tile 500 1000 1 (by decide) (by decide)

/-- C9 (confirmed): for `height > 0` and `viewportHeight ≥ 2` the step is
positive and the loop terminates within `totalScrolls =
⌈height / scrollStep⌉` iterations (fuel); for `viewportHeight ≤ 1` the step
is `0` and no amount of fuel makes the recursion terminate. -/
theorem c9_termination (height vh : ℕ) (hh : 0 < height) :
    (2 ≤ vh → 0 < scrollStep vh ∧ ∀ fuel, totalScrolls height (scrollStep vh) ≤ fuel →
      (captureCurrentViewport height (scrollStep vh) fuel 0).isSome = true) ∧
    (vh ≤ 1 → ∀ fuel, captureCurrentViewport height (scrollStep vh) fuel 0 = none) := by
  constructor
  · intro hvh
    have hs : 0 < scrollStep vh := by unfold scrollStep; omega
    refine ⟨hs, fun fuel hf => ?_⟩
    rw [captureCurrentViewport_eq height (scrollStep vh) hh hs fuel 0 (by omega) (by omega)]
    rfl
  · intro hvh fuel
    have hs : scrollStep vh = 0 := by unfold scrollStep; omega
    rw [hs]
    exact captureCurrentViewport_none_of_step_zero height hh fuel 0

/-- C9 witness: at `height = 10`: with `viewportHeight = 10` (step 9,
totalScrolls 2) the run with fuel 2 terminates; with `viewportHeight = 1`
(step 0) the run returns `none` even with fuel 5. -/
theorem c9_termination_witness :
    (captureCurrentViewport 10 (scrollStep 10) 2 0).isSome = true ∧
      captureCurrentViewport 10 (scrollStep 1) 5 0 = none :=
  ⟨((c9_termination 10 10 (by decide)).1 (by decide)).2 2 (by decide),
    (c9_termination 10 1 (by decide)).2 (by decide) 5⟩

/-! ### Compositor lemmas -/

lemma drawScreenshot_width (c : Canvas) (s : Screenshot) :
    (drawScreenshot c s).width = c.width := by
  cases himg : s.img <;> simp [drawScreenshot, himg, drawImage]

lemma drawScreenshot_height (c : Canvas) (s : Screenshot) :
    (drawScreenshot c s).height = c.height := by
  cases himg : s.img <;> simp [drawScreenshot, himg, drawImage]

lemma foldl_drawScreenshot_width :
    ∀ (l : List Screenshot) (c : Canvas), (l.foldl drawScreenshot c).width = c.width := by
  intro l
  induction l with
  | nil => intro c; rfl
  | cons s rest ih => intro c; rw [List.foldl_cons, ih, drawScreenshot_width]

lemma foldl_drawScreenshot_height :
    ∀ (l : List Screenshot) (c : Canvas), (l.foldl drawScreenshot c).height = c.height := by
  intro l
  induction l with
  | nil => intro c; rfl
  | cons s rest ih => intro c; rw [List.foldl_cons, ih, drawScreenshot_height]

/-- Drawing a list of screenshots none of which covers `(x, y)` leaves the
pixel at `(x, y)` unchanged. -/
lemma foldl_drawScreenshot_pixel_uncovered (x y : ℕ) :
    ∀ (l : List Screenshot) (c : Canvas), (∀ s ∈ l, coveredBy s x y = false) →
      (l.foldl drawScreenshot c).pixel x y = c.pixel x y := by
  intro l
  induction l with
  | nil => intro c _; rfl
  | cons s rest ih =>
    intro c hunc
    rw [List.foldl_cons, ih _ (fun t ht => hunc t (List.mem_cons_of_mem s ht))]
    cases himg : s.img with
    | none => simp [drawScreenshot, himg]
    | some img =>
      have hs := hunc s (List.mem_cons_self s rest)
      have hprop : ¬ (x < img.width ∧ s.scrollY ≤ y ∧ y < s.scrollY + img.height) := by
        intro hc
        have hcov : coveredBy s x y = true := by
          simp only [coveredBy, himg, Bool.and_eq_true, decide_eq_true_eq]
          exact ⟨⟨hc.1, hc.2.1⟩, hc.2.2⟩
        rw [hs] at hcov
        exact absurd hcov (by decide)
      simp only [drawScreenshot, himg, drawImage]
      rw [if_neg]
      intro hc
      exact hprop ⟨by omega, hc.2.2.1, hc.2.2.2⟩

/-- Pixels above the line `y = H` after compositing do not depend on the
tile pixels at or below that line: clipping every tile image at `H` gives
the same result there, provided the starting canvases agree there. -/
lemma foldl_drawScreenshot_clip (H : ℕ) :
    ∀ (l : List Screenshot) (c₁ c₂ : Canvas),
      (∀ x y, y < H → c₁.pixel x y = c₂.pixel x y) →
      ∀ x y, y < H → (l.foldl drawScreenshot c₁).pixel x y =
        ((l.map (clipToHeight H)).foldl drawScreenshot c₂).pixel x y := by
  intro l
  induction l with
  | nil => intro c₁ c₂ hagree x y hy; exact hagree x y hy
  | cons s rest ih =>
    intro c₁ c₂ hagree x y hy
    rw [List.map_cons, List.foldl_cons, List.foldl_cons]
    refine ih (drawScreenshot c₁ s) (drawScreenshot c₂ (clipToHeight H s)) ?_ x y hy
    intro x' y' hy'
    cases himg : s.img with
    | none =>
      simp only [drawScreenshot, clipToHeight, himg, Option.map_none']
      exact hagree x' y' hy'
    | some img =>
      simp only [drawScreenshot, clipToHeight, himg, Option.map_some', drawImage]
      by_cases hcond : 0 ≤ x' ∧ x' < 0 + img.width ∧ s.scrollY ≤ y' ∧ y' < s.scrollY + img.height
      · rw [if_pos hcond, if_pos (by omega)]
      · rw [if_neg hcond, if_neg (by omega)]
        exact hagree x' y' hy'

/-- `combineLoop` never changes the canvas extent. -/
lemma combineLoop_dims :
    ∀ (tiles : List BTile) (c c' : Canvas), combineLoop tiles c = some c' →
      c'.width = c.width ∧ c'.height = c.height := by
  intro tiles
  induction tiles with
  | nil =>
    intro c c' h
    injection h with h'
    rw [← h']
    exact ⟨rfl, rfl⟩
  | cons t rest ih =>
    intro c c' h
    cases himg : t.img with
    | none => simp [combineLoop, himg] at h
    | some img =>
      simp only [combineLoop, himg] at h
      have hres := ih _ _ h
      exact hres

/-! ### Claims about the compositors (C5, C6, C10) -/

/-- C5 counterexample: `combineScreenshots` performs no background fill.  On
a 1×2 canvas with a single 1×1 tile at `yPosition = 0`, the uncovered pixel
`(0, 1)` of the composite is transparent black, not opaque white. -/
theorem c5_cex :
    (combineScreenshots [⟨some ⟨1, 1, fun _ _ => ⟨0, 0, 0, 255⟩⟩, 0⟩] 1 2).map
        (fun c => c.pixel 0 1) = some transparentColor ∧
      transparentColor ≠ whiteColor := by
  exact ⟨by decide, by decide⟩

/-- C5 (amended): the variant A compositor `processImages` allocates a
surface of exactly `dimensions.width × dimensions.height` and fills it with
opaque white before drawing, so every in-bounds pixel covered by no tile
equals white.  (`combineScreenshots`, by contrast, has no background fill:
its uncovered pixels stay transparent, as the counterexample shows.) -/
theorem c5_white_background (screenshots : List Screenshot) (dims : Dimensions) (x y : ℕ)
    (hx : x < dims.width) (hy : y < dims.height)
    (hunc : ∀ s ∈ screenshots, coveredBy s x y = false) :
    (processImages screenshots dims).width = dims.width ∧
    (processImages screenshots dims).height = dims.height ∧
    (processImages screenshots dims).pixel x y = whiteColor := by
  refine ⟨?_, ?_, ?_⟩
  · unfold processImages
    rw [foldl_drawScreenshot_width]
    rfl
  · unfold processImages
    rw [foldl_drawScreenshot_height]
    rfl
  · unfold processImages
    rw [foldl_drawScreenshot_pixel_uncovered x y screenshots _ hunc]
    simp only [fillRect, createCanvas]
    rw [if_pos ⟨Nat.zero_le x, by omega, Nat.zero_le y, by omega⟩]

/-- C5 witness: a 2×2 page with one decoded 1×1 tile at scroll position 0;
the uncovered pixel `(1, 1)` is white. -/
theorem c5_white_background_witness :
    (processImages [⟨some ⟨1, 1, fun _ _ => ⟨0, 0, 0, 255⟩⟩, 0⟩] ⟨2, 2⟩).width = 2 ∧
      (processImages [⟨some ⟨1, 1, fun _ _ => ⟨0, 0, 0, 255⟩⟩, 0⟩] ⟨2, 2⟩).height = 2 ∧
      (processImages [⟨some ⟨1, 1, fun _ _ => ⟨0, 0, 0, 255⟩⟩, 0⟩] ⟨2, 2⟩).pixel 1 1 =
        whiteColor :=
  c5_white_background [⟨some ⟨1, 1, fun _ _ => ⟨0, 0, 0, 255⟩⟩, 0⟩] ⟨2, 2⟩ 1 1
    (by decide) (by decide) (by decide)

/-- C6 counterexample: in `combineScreenshots` a tile whose image fails to
load blocks compositing forever (no `onerror` handler ever resolves the
awaited promise): with one bad tile no composite is produced at all,
whereas without it the composite is produced. -/
theorem c6_cex :
    combineScreenshots [⟨none, 0⟩] 2 2 = none ∧
      combineScreenshots [] 2 2 = some (createCanvas 2 2) :=
  ⟨rfl, rfl⟩

/-- C6 (amended): the variant A compositor `processImages` does skip a tile
whose decode failed and composites all the remaining tiles: the result is
exactly the composite of the same sequence with the bad tile removed (and a
composite is always produced — `processImages` is total).
(`combineScreenshots`, by contrast, never finishes when a tile fails to
load, as the counterexample shows.) -/
theorem c6_skip (pre post : List Screenshot) (bad : Screenshot) (dims : Dimensions)
    (hbad : bad.img = none) :
    processImages (pre ++ bad :: post) dims = processImages (pre ++ post) dims := by
  have h1 : ∀ c : Canvas, drawScreenshot c bad = c := by
    intro c; simp [drawScreenshot, hbad]
  unfold processImages
  rw [List.foldl_append, List.foldl_append, List.foldl_cons, h1]

/-- C6 witness: a concrete three-tile sequence whose middle tile failed to
decode composites exactly like the two good tiles alone. -/
theorem c6_skip_witness :
    processImages [⟨some ⟨1, 1, fun _ _ => whiteColor⟩, 0⟩, ⟨none, 1⟩] ⟨2, 2⟩ =
      processImages [⟨some ⟨1, 1, fun _ _ => whiteColor⟩, 0⟩] ⟨2, 2⟩ :=
  c6_skip [⟨some ⟨1, 1, fun _ _ => whiteColor⟩, 0⟩] [] ⟨none, 1⟩ ⟨2, 2⟩ rfl

/-- C10 (confirmed): both compositors keep the output surface at exactly
the requested extent, for every tile sequence: `processImages` serializes
exactly `dimensions.height` rows of `dimensions.width` pixels, its
in-bounds pixels never depend on tile pixels below the bottom edge
(drawing is clipped there), and a completed `combineScreenshots` canvas has
extent exactly `width × height`. -/
theorem c10_composite_dims (screenshots : List Screenshot) (dims : Dimensions)
    (tiles : List BTile) (w h : ℕ) (cB : Canvas)
    (hB : combineScreenshots tiles w h = some cB) :
    (processImages screenshots dims).width = dims.width ∧
    (processImages screenshots dims).height = dims.height ∧
    (serialize (processImages screenshots dims)).length = dims.height ∧
    (∀ row ∈ serialize (processImages screenshots dims), row.length = dims.width) ∧
    (∀ x < dims.width, ∀ y < dims.height,
      (processImages screenshots dims).pixel x y =
        (processImages (screenshots.map (clipToHeight dims.height)) dims).pixel x y) ∧
    cB.width = w ∧ cB.height = h := by
  have hw : (processImages screenshots dims).width = dims.width := by
    unfold processImages; rw [foldl_drawScreenshot_width]; rfl
  have hh : (processImages screenshots dims).height = dims.height := by
    unfold processImages; rw [foldl_drawScreenshot_height]; rfl
  have hBdims := combineLoop_dims tiles (createCanvas w h) cB hB
  refine ⟨hw, hh, ?_, ?_, ?_, hBdims.1, hBdims.2⟩
  · rw [serialize, hh, List.length_map, List.length_range]
  · intro row hrow
    rw [serialize] at hrow
    obtain ⟨y, hy, rfl⟩ := List.mem_map.mp hrow
    rw [List.length_map, List.length_range, hw]
  · intro x hx y hy
    unfold processImages
    exact foldl_drawScreenshot_clip dims.height screenshots _ _ (fun _ _ _ => rfl) x y hy

/-- C10 witness: concrete instantiation on a 1×1 page. -/
theorem c10_composite_dims_witness :
    (processImages [] ⟨1, 1⟩).width = 1 ∧
      (processImages [] ⟨1, 1⟩).height = 1 ∧
      (serialize (processImages [] ⟨1, 1⟩)).length = 1 ∧
      (createCanvas 1 1).width = 1 ∧ (createCanvas 1 1).height = 1 := by
  have h := c10_composite_dims [] ⟨1, 1⟩ [] 1 1 (createCanvas 1 1) rfl
  exact ⟨h.1, h.2.1, h.2.2.1, h.2.2.2.2.2.1, h.2.2.2.2.2.2⟩

/-! ### Claims about failure handling and scroll restoration (C7, C8) -/

/-- C7 counterexample: a capture failure on tile 2 (scroll index 1) of a
3-tile session (`totalHeight = 2500, viewportHeight = 1000`) aborts the
session — only tile 1 was pushed, `processScreenshots` is not invoked, the
error is logged — but the restore flag is `false`: restoration of the
original scroll position is *not* attempted (variant A has no restore code
at all). -/
theorem c7_cex :
    captureWithFailures (fun _ => true) (fun i => !(i == 1)) 2500 (scrollStep 1000)
        10 0 [] = some ⟨[0], false, true, false⟩ ∧
      (⟨[0], false, true, false⟩ : SessionResultA).restored = false := by
  exact ⟨by decide, rfl⟩

/-- C7 (amended): whenever a scroll or capture step of
`captureCurrentViewport` fails, the session aborts — the compositor is
invoked exactly when no error was logged (no partial artifact on failure) —
but the original scroll position is never restored, on failure or success:
`captureCurrentViewport` contains no restoration code. -/
theorem c7_abort (scrollOk capOk : ℕ → Bool) (height step : ℕ) :
    ∀ fuel scrollIndex acc r,
      captureWithFailures scrollOk capOk height step fuel scrollIndex acc = some r →
      r.restored = false ∧ r.composited = !r.errorLogged := by
  intro fuel
  induction fuel with
  | zero => intro i acc r h; simp [captureWithFailures] at h
  | succ f ih =>
    intro i acc r h
    rw [show captureWithFailures scrollOk capOk height step (f + 1) i acc =
        if scrollOk i = false then some ⟨acc, false, true, false⟩
        else if capOk i = false then some ⟨acc, false, true, false⟩
        else if continueCapture height step i then
          captureWithFailures scrollOk capOk height step f (i + 1) (acc ++ [i * step])
        else some ⟨acc ++ [i * step], true, false, false⟩ from rfl] at h
    by_cases h1 : scrollOk i = false
    · rw [if_pos h1] at h
      injection h with h'
      rw [← h']
      exact ⟨rfl, rfl⟩
    · rw [if_neg h1] at h
      by_cases h2 : capOk i = false
      · rw [if_pos h2] at h
        injection h with h'
        rw [← h']
        exact ⟨rfl, rfl⟩
      · rw [if_neg h2] at h
        by_cases h3 : continueCapture height step i
        · rw [if_pos h3] at h
          exact ih (i + 1) (acc ++ [i * step]) r h
        · rw [if_neg h3] at h
          injection h with h'
          rw [← h']
          exact ⟨rfl, rfl⟩

/-- C7 witness: a session whose very first scroll fails. -/
theorem c7_abort_witness :
    (⟨[], false, true, false⟩ : SessionResultA).restored = false ∧
      (⟨[], false, true, false⟩ : SessionResultA).composited =
        !(⟨[], false, true, false⟩ : SessionResultA).errorLogged :=
  c7_abort (fun i => !(i == 0)) (fun _ => true) 100 90 5 0 [] ⟨[], false, true, false⟩
    (by decide)

/-- C8 counterexample: a fully successful variant A session
(`totalHeight = 2500, viewportHeight = 1000`, three tiles captured, the
compositor invoked) ends with `restored = false`: `captureCurrentViewport`
and `processScreenshots` never restore the original scroll position. -/
theorem c8_cex :
    captureWithFailures (fun _ => true) (fun _ => true) 2500 (scrollStep 1000)
        10 0 [] = some ⟨[0, 900, 1800], true, false, false⟩ ∧
      (⟨[0, 900, 1800], true, false, false⟩ : SessionResultA).restored ≠ true := by
  exact ⟨by decide, by decide⟩

lemma handleCaptureLoop_ok (scrollOk capOk : ℕ → Bool) (height vh : ℕ) :
    ∀ (l : List ℕ) (acc : List ℤ), (∀ i ∈ l, scrollOk i = true ∧ capOk i = true) →
      (handleCaptureLoop scrollOk capOk height vh l acc).restored = true ∧
      (handleCaptureLoop scrollOk capOk height vh l acc).composited = true := by
  intro l
  induction l with
  | nil => intro acc _; exact ⟨rfl, rfl⟩
  | cons i rest ih =>
    intro acc hok
    have hi := hok i (List.mem_cons_self i rest)
    rw [show handleCaptureLoop scrollOk capOk height vh (i :: rest) acc =
        if scrollOk i = false then ⟨acc, false, true, false⟩
        else if capOk i = false then ⟨acc, false, true, false⟩
        else handleCaptureLoop scrollOk capOk height vh rest
          (acc ++ [min ((i : ℤ) * vh) ((height : ℤ) - vh)]) from rfl]
    rw [if_neg (by rw [hi.1]; exact fun hc => Bool.noConfusion hc),
      if_neg (by rw [hi.2]; exact fun hc => Bool.noConfusion hc)]
    exact ih _ (fun j hj => hok j (List.mem_cons_of_mem i hj))

/-- C8 (amended): the variant B driver `handleCapture` does restore the
original scroll position after its loop on a fully successful session (and
then invokes the compositor); the variant A driver `captureCurrentViewport`
never restores it (see the counterexample). -/
theorem c8_restore (scrollOk capOk : ℕ → Bool) (height vh : ℕ)
    (h : ∀ i ∈ List.range (numFullScreenshots height vh),
      scrollOk i = true ∧ capOk i = true) :
    (handleCapture scrollOk capOk height vh).restored = true ∧
      (handleCapture scrollOk capOk height vh).composited = true :=
  handleCaptureLoop_ok scrollOk capOk height vh _ [] h

/-- C8 witness: an all-successful `handleCapture` session on
`totalHeight = 300, viewportHeight = 100`. -/
theorem c8_restore_witness :
    (handleCapture (fun _ => true) (fun _ => true) 300 100).restored = true ∧
      (handleCapture (fun _ => true) (fun _ => true) 300 100).composited = true :=
  c8_restore (fun _ => true) (fun _ => true) 300 100 (by simp)
